import Mathlib

/-!
# Verification of the slashtags identity/session core

This file gives a shallow embedding, in Lean 4, of the `Slashtag` class of the
slashtags repository and settles the frozen claims about it.

Two implementations of `Slashtag` exist in the sources:

* the main library class (`src/unnamed/part_000`, the class with `ready`,
  `connect`, `drive`, `protocol`, `setProfile`, `getProfile`, `close`),
  embedded below as the structure `Slashtag` and the functions in the
  `Slashtag` namespace;
* the minimal `packages/slashtag/index.js` class, whose `close` path is
  embedded as `PSlashtag` / `PSlashtag.close`.

Keys and byte buffers are modelled structurally: a public key is a `Nat`
(the registries `turbo-hash-map` and `Map` key by byte content, which
structural equality of `Nat` models), byte strings are `List Char`.

External collaborators (hyperswarm, dht-universal, corestore, slashdrive)
are modelled at their interface boundary exactly as the spec's section 6
describes them, with side effects recorded in the state (counters for DHT
and swarm construction, joined discovery topics, transport dials).
-/

/-- Public keys: `b4a.equals` / hash-map keying compares byte content, which
structural equality on `Nat` models. -/
abbrev Key := Nat

/-- A signing key pair (`opts.keyPair`): `{publicKey, secretKey}`. -/
structure KeyPair where
  publicKey : Key
  secretKey : Key
deriving DecidableEq

/-- An in-memory `SlashDrive` handle.  `instId` is the in-memory object
identity (two handles with different `instId` are distinct objects);
`key` is the drive's resolved key; `writable` records whether the drive
was opened with a key pair (signing capability). -/
structure DriveHandle where
  instId : Nat
  key : Key
  writable : Bool
deriving DecidableEq

/-- A protocol instance as produced by `new Protocol({slashtag: this})`;
`instId` is the in-memory object identity. -/
structure ProtocolInst where
  name : String
  instId : Nat
deriving DecidableEq

/-- The hyperswarm session owned by a `Slashtag` after `ready()`:
`conns` models `_allConnections` (remote key to connection object id),
`joinedTopics` the topics passed to `swarm.join` (duplicates kept so
announcements can be counted), `joinPeerCount` the number of
transport-level `joinPeer` dials issued. -/
structure SwarmState where
  destroyed : Bool
  listening : Bool
  conns : List (Key × Nat)
  joinedTopics : List Key
  joinPeerCount : Nat
deriving DecidableEq

/-- The mutable state of a `Slashtag` instance (`src/unnamed/part_000`).
Fields mirror the source fields of the same name; `readyFlag` is the
source's `_ready`, `dhtCreated` and `swarmCreated` count the
`DHT.create` / `new Hyperswarm` effects, `driveData` is the content of the
replicated stores keyed by drive key, `storeClosed` records whether
`this.store.close()` ran, and `freshCounter` allocates in-memory object
identities. -/
structure Slashtag where
  keyPair : Option KeyPair
  key : Key
  remote : Bool
  closed : Bool
  readyFlag : Bool
  swarm : Option SwarmState
  dhtCreated : Nat
  swarmCreated : Nat
  drives : List (Key × DriveHandle)
  driveData : List (Key × List (String × List Char))
  protocols : List (String × ProtocolInst)
  publicDrive : Option DriveHandle
  storeClosed : Bool
  freshCounter : Nat
deriving DecidableEq

/-- Errors thrown by the class.  The source throws plain `Error` objects;
each variant names the `throw` site (or collaborator failure) it models. -/
inductive SlashErr where
  /-- `throw new Error('Missing keyPair or key')` in the constructor. -/
  | missingKey
  /-- `throw new Error('Cannot listen on a remote slashtag')`. -/
  | remoteListen
  /-- `throw new Error('Cannot connect from a remote slashtag')`. -/
  | remoteConnect
  /-- `throw new Error('Cannot register protocol on a remote slashtag')`. -/
  | remoteProtocol
  /-- `throw new Error('Cannot connect to self')`. -/
  | selfConnect
  /-- A write to a drive opened without a key pair fails in the drive
  collaborator (not a remote-identity error of the class itself). -/
  | driveNotWritable
  /-- `JSON.parse` throwing on malformed stored bytes. -/
  | jsonParseError
  /-- `SlashDrive` construction with neither a key nor a key pair. -/
  | badDriveOpts
  /-- Optional-chained swarm access when no session exists. -/
  | noSession
deriving DecidableEq

/-- The errors the spec groups as `RemoteIdentityError`: an operation that
requires signing capability was invoked on a remote identity. -/
def SlashErr.isRemoteIdentity : SlashErr → Bool
  | .remoteListen => true
  | .remoteConnect => true
  | .remoteProtocol => true
  | _ => false

/-- First-match association lookup, modelling `Map.get` / `HashMap.get`. -/
def alookup {α β : Type} [BEq α] (l : List (α × β)) (k : α) : Option β :=
  (l.find? (fun e => e.1 == k)).map (·.2)

namespace Slashtag

/-- The state built by the constructor once a public key `k` has been
resolved: `remote` is `!this.keyPair`, everything else starts empty.
(`opts.store || new Corestore(RAM)` then `store.namespace(this.key)`:
the namespaced store starts open, `storeClosed := false`.) -/
def initState (keyPair : Option KeyPair) (k : Key) : Slashtag :=
  { keyPair := keyPair
    key := k
    remote := keyPair.isNone
    closed := false
    readyFlag := false
    swarm := none
    dhtCreated := 0
    swarmCreated := 0
    drives := []
    driveData := []
    protocols := []
    publicDrive := none
    storeClosed := false
    freshCounter := 0 }

/-- `this.key = opts.keyPair?.publicKey || opts.key || this.url?.slashtag.key`.
A `SlashURL` is modelled by the key it decodes to (URL parsing is the pure
utility collaborator of spec section 1). -/
def resolveKey (keyPair : Option KeyPair) (key : Option Key) (url : Option Key) :
    Option Key :=
  match keyPair with
  | some kp => some kp.publicKey
  | none =>
    match key with
    | some k => some k
    | none => url

/-- The constructor: resolve the key with the `keyPair || key || url`
precedence and throw `Missing keyPair or key` synchronously when none is
present (no object is constructed in that case: the result is `.error`). -/
def create (keyPair : Option KeyPair) (key : Option Key) (url : Option Key) :
    Except SlashErr Slashtag :=
  match resolveKey keyPair key url with
  | none => .error .missingKey
  | some k => .ok (initState keyPair k)

/-- Options of `drive(opts)` as used by the sources: an optional target
`key` and an optional `keyPair` (the name/encryption options play no role
in the claims). -/
structure DriveOpts where
  key : Option Key
  keyPair : Option KeyPair
deriving DecidableEq

/-- `SlashDrive` key resolution: a supplied key pair wins, else the raw
key. -/
def resolveDriveKey (opts : DriveOpts) : Option Key :=
  match opts.keyPair with
  | some kp => some kp.publicKey
  | none => opts.key

/-- `this.swarm?.join(drive.discoveryKey, opts)` of `_setupDiscovery`:
record the topic when a session exists, else the optional chain is a
no-op.  The discovery key of a drive is modelled by the drive key itself
(only its injectivity matters). -/
def joinTopic (sw : Option SwarmState) (k : Key) : Option SwarmState :=
  sw.map (fun w => { w with joinedTopics := k :: w.joinedTopics })

/-- The body of `drive(opts)` after the `await this.ready()` line:
construct a fresh `SlashDrive` over the namespaced store and await its
readiness; if `_drives` already holds a live handle under the resolved
key, return the cached handle (the fresh one is discarded); otherwise
cache the fresh handle, run `_setupDiscovery` (join the discovery topic)
and return it after `drive.update()`. -/
def driveCore (s : Slashtag) (dk : Key) (writable : Bool) : DriveHandle × Slashtag :=
  let fresh : DriveHandle := { instId := s.freshCounter, key := dk, writable := writable }
  let s1 := { s with freshCounter := s.freshCounter + 1 }
  match alookup s1.drives dk with
  | some existing => (existing, s1)
  | none =>
    (fresh,
      { s1 with
        drives := (dk, fresh) :: s1.drives
        swarm := joinTopic s1.swarm dk })

/-- `ready()` run to completion with no interleaved task (the sequential
semantics; the suspension points are modelled separately in `ReadyTask`).
If `_ready` is set, return at once; otherwise create the DHT
(`DHT.create`), the swarm (`new Hyperswarm`), wire the connection
listener, set `_ready = true`, and create the default public drive
`this.drive({key: this.key, keyPair: this.keyPair})` (whose inner
`ready()` call sees the flag already set, so `driveCore` is entered
directly). -/
def runReady (s : Slashtag) : Slashtag :=
  if s.readyFlag then s
  else
    let s1 :=
      { s with
        dhtCreated := s.dhtCreated + 1
        swarmCreated := s.swarmCreated + 1
        swarm := some
          { destroyed := false, listening := false, conns := []
            joinedTopics := [], joinPeerCount := 0 }
        readyFlag := true }
    let r := driveCore s1 s1.key s1.keyPair.isSome
    { r.2 with publicDrive := some r.1 }

/-- `drive(opts)`: `await this.ready()`, then resolve and build the drive
(`driveCore`). -/
def drive (s : Slashtag) (opts : DriveOpts) : Except SlashErr (DriveHandle × Slashtag) × Slashtag :=
  let s0 := runReady s
  match resolveDriveKey opts with
  | none => (.error .badDriveOpts, s0)
  | some dk =>
    let r := driveCore s0 dk opts.keyPair.isSome
    (.ok r, r.2)

/-- The argument of `connect`: raw key bytes, a `SlashURL` object, or a
URL string; the latter two are modelled by the key they decode to. -/
inductive ConnectTarget where
  | raw (k : Key)
  | url (k : Key)
  | str (k : Key)
deriving DecidableEq

/-- The pure key resolution at the top of `connect` (`new
SlashURL(key).slashtag.key` for strings, `key.slashtag.key` for URL
objects). -/
def resolveTarget : ConnectTarget → Key
  | .raw k => k
  | .url k => k
  | .str k => k

/-- What a successful `connect` resolves to: `{connection, peerInfo}`,
modelled by the connection object id and the peer key. -/
structure ConnOut where
  connId : Nat
  peerKey : Key
deriving DecidableEq

/-- `connect(key)`: throw on a remote slashtag, resolve the target key,
throw on self-connect, `await this.ready()`; return the live connection
from `swarm._allConnections` if present, otherwise dial
(`catchConnection` + `swarm.joinPeer`).  On the dial path the transport
collaborator establishes the connection and registers it under the target
key (spec section 6: exactly one `connection` event per established
transport), modelled by inserting a fresh connection id into `conns`. -/
def connect (s : Slashtag) (t : ConnectTarget) : Except SlashErr ConnOut × Slashtag :=
  if s.remote then (.error .remoteConnect, s)
  else
    let k := resolveTarget t
    if k = s.key then (.error .selfConnect, s)
    else
      let s1 := runReady s
      match s1.swarm with
      | none => (.error .noSession, s1)
      | some w =>
        match alookup w.conns k with
        | some cid => (.ok { connId := cid, peerKey := k }, s1)
        | none =>
          let cid := s1.freshCounter
          let w2 :=
            { w with
              conns := (k, cid) :: w.conns
              joinPeerCount := w.joinPeerCount + 1 }
          (.ok { connId := cid, peerKey := k },
            { s1 with swarm := some w2, freshCounter := s1.freshCounter + 1 })

/-- `listen()`: throw on a remote slashtag, else `await this.ready()` and
`this.swarm.listen()`. -/
def listen (s : Slashtag) : Except SlashErr Unit × Slashtag :=
  if s.remote then (.error .remoteListen, s)
  else
    let s1 := runReady s
    (.ok (),
      { s1 with swarm := s1.swarm.map (fun w => { w with listening := true }) })

/-- `protocol(Protocol)`: throw on a remote slashtag; return the cached
instance under `Protocol.protocol` if registered, else construct
`new Protocol({slashtag: this})`, cache and return it.  There is no
closed-state check in the source. -/
def protocolOp (s : Slashtag) (protoName : String) : Except SlashErr ProtocolInst × Slashtag :=
  if s.remote then (.error .remoteProtocol, s)
  else
    match alookup s.protocols protoName with
    | some p => (.ok p, s)
    | none =>
      let p : ProtocolInst := { name := protoName, instId := s.freshCounter }
      (.ok p,
        { s with
          protocols := (protoName, p) :: s.protocols
          freshCounter := s.freshCounter + 1 })

/-- The observable actions of `close()`, in execution order. -/
inductive CloseEv where
  | markClosed
  | emitClose
  | destroySwarm
  | closeStore
deriving DecidableEq

/-- `close()`: return at once when already closed; else set
`this.closed = true`, `this.emit('close')`, and — only when a swarm
exists — `await this.swarm.destroy()` then `await this.store.close()`.
The returned list is the trace of actions in order. -/
def close (s : Slashtag) : Slashtag × List CloseEv :=
  if s.closed then (s, [])
  else
    let s1 := { s with closed := true }
    match s1.swarm with
    | none => (s1, [.markClosed, .emitClose])
    | some w =>
      ({ s1 with swarm := some { w with destroyed := true }, storeClosed := true },
        [.markClosed, .emitClose, .destroySwarm, .closeStore])

end Slashtag

/-! ## The `packages/slashtag/index.js` variant

Only its `close` path is needed by the claims: `close()` memoizes the
teardown promise in `this._closing`; `_close()` closes the corestore,
unlistens, destroys every socket, destroys the DHT when it owns it, then
sets `this.closed = true` and emits `'close'`. -/

/-- State of the minimal `packages/slashtag/index.js` class (the fields
its `close` path touches). -/
structure PSlashtag where
  closing : Bool
  closed : Bool
  storeClosed : Bool
  listening : Bool
  socketsDestroyed : Bool
  dhtDestroyed : Bool
  shouldDestroyDHT : Bool
deriving DecidableEq

/-- Observable actions of the packages-variant `close()`, in order. -/
inductive PEv where
  | closeCorestore
  | unlisten
  | destroySockets
  | destroyDht
  | setClosed
  | emitClose
deriving DecidableEq

namespace PSlashtag

/-- `close()` of `packages/slashtag/index.js`: a second call returns the
memoized `_closing` promise (no events); otherwise `_close()` runs
`corestore.close()`, `unlisten()`, destroys the sockets, destroys the DHT
when `_shouldDestroyDHT`, and only then sets `closed` and emits
`'close'`. -/
def close (s : PSlashtag) : PSlashtag × List PEv :=
  if s.closing then (s, [])
  else
    ({ s with
        closing := true
        storeClosed := true
        listening := false
        socketsDestroyed := true
        dhtDestroyed := s.dhtDestroyed || s.shouldDestroyDHT
        closed := true },
      [.closeCorestore, .unlisten, .destroySockets]
        ++ (if s.shouldDestroyDHT then [.destroyDht] else [])
        ++ [.setClosed, .emitClose])

end PSlashtag

/-! ## Interleaving model of `ready()`

`ready()` contains `await` suspension points; between them the body runs
atomically (single-threaded cooperative scheduling, spec section 5).  The
blocks of one invocation are:

* `p0` — `if (this._ready) return true` and, when the flag is unset, the
  call `DHT.create({...})` (the task then suspends on its `await`);
* `p1` — construction of the `Hyperswarm`, wiring of the `connection`
  listener, and `this._ready = true`; the task then enters
  `this.drive({key, keyPair})`, whose inner `ready()` sees the flag set,
  and suspends awaiting the new `SlashDrive`'s readiness;
* `p2` — the `_drives` cache lookup: insert and announce the public drive
  on a miss, reuse the cached handle on a hit; the invocation completes.
-/

/-- Shared state read and written by interleaved `ready()` invocations:
the `_ready` flag, the number of DHTs and swarms created, whether the
public drive is cached under the slashtag's own key, and how many fresh
public-drive cache inserts happened. -/
structure RState where
  flag : Bool
  dht : Nat
  swarmc : Nat
  driveCached : Bool
  driveInserts : Nat
deriving DecidableEq

/-- Program counter of one `ready()` invocation (see the block comments
above). -/
inductive RPc where
  | p0
  | p1
  | p2
  | pdone
deriving DecidableEq

/-- One atomic block of a `ready()` invocation. -/
def readyStep : RPc × RState → RPc × RState
  | (.p0, s) =>
    if s.flag then (.pdone, s)
    else (.p1, { s with dht := s.dht + 1 })
  | (.p1, s) => (.p2, { s with swarmc := s.swarmc + 1, flag := true })
  | (.p2, s) =>
    if s.driveCached then (.pdone, s)
    else (.pdone, { s with driveCached := true, driveInserts := s.driveInserts + 1 })
  | (.pdone, s) => (.pdone, s)

/-- Run two concurrent `ready()` invocations under a schedule: each list
entry advances the named task (`false` = first task, `true` = second) by
one atomic block. -/
def sched : List Bool → RPc × RPc × RState → RPc × RPc × RState
  | [], st => st
  | b :: rest, (pc0, pc1, s) =>
    if b then
      let (pc1n, sn) := readyStep (pc1, s)
      sched rest (pc0, pc1n, sn)
    else
      let (pc0n, sn) := readyStep (pc0, s)
      sched rest (pc0n, pc1, sn)

/-- The shared state before any `ready()` call. -/
def rInit : RState :=
  { flag := false, dht := 0, swarmc := 0, driveCached := false, driveInserts := 0 }

/-! ## JSON model

`setProfile` stores `JSON.stringify(profile)` and `getProfile` returns
`JSON.parse` of the stored bytes.  The platform's JSON codec is modelled
executably: `Json` is the type of JSON-serializable structures (numbers
modelled as integers), `Json.stringify` renders the canonical
whitespace-free text `JSON.stringify` produces, and `jsonParse` is a
recursive-descent reader of that text (as `JSON.parse` on such canonical
text; it returns `none` where `JSON.parse` would throw). -/

/-- JSON-serializable values; numbers are modelled as integers. -/
inductive Json where
  | null
  | bool (b : Bool)
  | num (n : Int)
  | str (s : List Char)
  | arr (elems : List Json)
  | obj (fields : List (List Char × Json))

/-- The double-quote character. -/
def qCh : Char := Char.ofNat 34

/-- The backslash character. -/
def bsCh : Char := Char.ofNat 92

/-- The opening curly brace character. -/
def lbCh : Char := Char.ofNat 123

/-- The closing curly brace character. -/
def rbCh : Char := Char.ofNat 125

/-- Decimal digit characters. -/
def digitChar : Nat → Char
  | 0 => '0'
  | 1 => '1'
  | 2 => '2'
  | 3 => '3'
  | 4 => '4'
  | 5 => '5'
  | 6 => '6'
  | 7 => '7'
  | 8 => '8'
  | 9 => '9'
  | _ => '?'

/-- Is `c` a decimal digit character? -/
def isDigitCh (c : Char) : Bool := 48 ≤ c.toNat && c.toNat ≤ 57

/-- Numeric value of a digit character. -/
def digitVal (c : Char) : Nat := c.toNat - 48

/-- Decimal digits of `n`, least significant first (`fuel` bounds the
recursion; `fuel ≥ n` suffices). -/
def natDigitsAux : Nat → Nat → List Nat
  | 0, _ => []
  | _ + 1, 0 => []
  | fuel + 1, n + 1 => ((n + 1) % 10) :: natDigitsAux fuel ((n + 1) / 10)

/-- The decimal rendering of a natural number. -/
def natChars (n : Nat) : List Char :=
  match n with
  | 0 => [digitChar 0]
  | m + 1 => ((natDigitsAux (m + 1) (m + 1)).map digitChar).reverse

/-- The decimal rendering of an integer (`-` prefix when negative). -/
def intChars (i : Int) : List Char :=
  if i < 0 then '-' :: natChars i.natAbs else natChars i.toNat

/-- JSON string escaping: quote and backslash get a backslash prefix. -/
def escapeChar (c : Char) : List Char :=
  if c.toNat = 34 ∨ c.toNat = 92 then [bsCh, c] else [c]

/-- Escape every character of a string body. -/
def escapeStr : List Char → List Char
  | [] => []
  | c :: s => escapeChar c ++ escapeStr s

/-- A quoted, escaped JSON string literal. -/
def quoteStr (s : List Char) : List Char :=
  qCh :: escapeStr s ++ [qCh]

/-- The keyword `null` as characters. -/
def nullChars : List Char := ['n', 'u', 'l', 'l']

/-- The keyword `true` as characters. -/
def trueChars : List Char := ['t', 'r', 'u', 'e']

/-- The keyword `false` as characters. -/
def falseChars : List Char := ['f', 'a', 'l', 's', 'e']

mutual

/-- `JSON.stringify` on the Json model (canonical, whitespace-free). -/
def Json.stringify : Json → List Char
  | .null => nullChars
  | .bool true => trueChars
  | .bool false => falseChars
  | .num n => intChars n
  | .str s => quoteStr s
  | .arr xs => '[' :: strElems xs ++ [']']
  | .obj kvs => lbCh :: strFields kvs ++ [rbCh]

/-- Comma-separated renderings of array elements. -/
def strElems : List Json → List Char
  | [] => []
  | [x] => Json.stringify x
  | x :: y :: xs => Json.stringify x ++ ',' :: strElems (y :: xs)

/-- Comma-separated renderings of object fields (`"key":value`). -/
def strFields : List (List Char × Json) → List Char
  | [] => []
  | [(k, v)] => quoteStr k ++ ':' :: Json.stringify v
  | (k, v) :: f :: kvs => quoteStr k ++ ':' :: Json.stringify v ++ ',' :: strFields (f :: kvs)

end

/-- Read a string body up to the closing quote, undoing the escaping. -/
def readStr : List Char → Option (List Char × List Char)
  | [] => none
  | c :: rest =>
    if c.toNat = 92 then
      match rest with
      | [] => none
      | d :: rest2 =>
        match readStr rest2 with
        | some (s, r) => some (d :: s, r)
        | none => none
    else if c.toNat = 34 then some ([], rest)
    else
      match readStr rest with
      | some (s, r) => some (c :: s, r)
      | none => none

/-- Read a nonempty run of digits as a natural number. -/
def readNat (cs : List Char) : Option (Nat × List Char) :=
  let ds := cs.takeWhile isDigitCh
  if ds.isEmpty then none
  else some (ds.foldl (fun a c => 10 * a + digitVal c) 0, cs.dropWhile isDigitCh)

/-- Expect a fixed run of characters, returning what follows it. -/
def expectChars : List Char → List Char → Option (List Char)
  | [], cs => some cs
  | _ :: _, [] => none
  | e :: es, c :: cs => if c = e then expectChars es cs else none

/-- One JSON reader level: the triple of value, element-list and
field-list readers at a given fuel, defined by structural recursion on
the fuel (this presents the three mutually recursive readers as a single
fueled definition; each reader at `fuel + 1` only calls the readers at
`fuel`).  Characters are dispatched on their code points: 110 `n`,
116 `t`, 102 `f`, 34 quote, 91 `[`, 123 open brace, 45 `-`, 48 to 57
digits; 44 is the comma, 93 `]`, 125 the closing brace, 58 the colon. -/
def readers : Nat →
    (List Char → Option (Json × List Char))
    × (List Char → Option (List Json × List Char))
    × (List Char → Option (List (List Char × Json) × List Char))
  | 0 => (fun _ => none, fun _ => none, fun _ => none)
  | fuel + 1 =>
    let rv := (readers fuel).1
    let re := (readers fuel).2.1
    let rf := (readers fuel).2.2
    (fun cs =>
      match cs with
      | [] => none
      | c :: rest =>
        if c.toNat = 110 then
          match expectChars ['u', 'l', 'l'] rest with
          | some r => some (.null, r)
          | none => none
        else if c.toNat = 116 then
          match expectChars ['r', 'u', 'e'] rest with
          | some r => some (.bool true, r)
          | none => none
        else if c.toNat = 102 then
          match expectChars ['a', 'l', 's', 'e'] rest with
          | some r => some (.bool false, r)
          | none => none
        else if c.toNat = 34 then
          match readStr rest with
          | some (s, r) => some (.str s, r)
          | none => none
        else if c.toNat = 91 then
          match rest with
          | [] => none
          | d :: r2 =>
            if d.toNat = 93 then some (.arr [], r2)
            else
              match re (d :: r2) with
              | some (xs, r) => some (.arr xs, r)
              | none => none
        else if c.toNat = 123 then
          match rest with
          | [] => none
          | d :: r2 =>
            if d.toNat = 125 then some (.obj [], r2)
            else
              match rf (d :: r2) with
              | some (kvs, r) => some (.obj kvs, r)
              | none => none
        else if c.toNat = 45 then
          match readNat rest with
          | some (m, r) => some (.num (-(m : Int)), r)
          | none => none
        else if 48 <= c.toNat && c.toNat <= 57 then
          match readNat (c :: rest) with
          | some (m, r) => some (.num (m : Int), r)
          | none => none
        else none,
     fun cs =>
      match rv cs with
      | none => none
      | some (v, r) =>
        match r with
        | [] => none
        | d :: r2 =>
          if d.toNat = 44 then
            match re r2 with
            | some (xs, r3) => some (v :: xs, r3)
            | none => none
          else if d.toNat = 93 then some ([v], r2)
          else none,
     fun cs =>
      match cs with
      | [] => none
      | c :: rest =>
        if c.toNat = 34 then
          match readStr rest with
          | none => none
          | some (k, r) =>
            match r with
            | [] => none
            | c2 :: r2 =>
              if c2.toNat = 58 then
                match rv r2 with
                | none => none
                | some (v, r3) =>
                  match r3 with
                  | [] => none
                  | c3 :: r4 =>
                    if c3.toNat = 44 then
                      match rf r4 with
                      | some (kvs, r5) => some ((k, v) :: kvs, r5)
                      | none => none
                    else if c3.toNat = 125 then some ([(k, v)], r4)
                    else none
              else none
        else none)

/-- Read one JSON value (the value reader at the given fuel). -/
def readVal (fuel : Nat) (cs : List Char) : Option (Json × List Char) :=
  (readers fuel).1 cs

/-- Read a nonempty comma-separated element list, consuming the closing
bracket. -/
def readElems (fuel : Nat) (cs : List Char) : Option (List Json × List Char) :=
  (readers fuel).2.1 cs

/-- Read a nonempty comma-separated field list, consuming the closing
brace. -/
def readFields (fuel : Nat) (cs : List Char) :
    Option (List (List Char × Json) × List Char) :=
  (readers fuel).2.2 cs

/-- `JSON.parse` on canonical text: read one value and require the input
to be exhausted. -/
def jsonParse (cs : List Char) : Option Json :=
  match readVal (cs.length + 1) cs with
  | some (v, []) => some v
  | _ => none

namespace Slashtag

/-- Content lookup in a drive: the bytes stored under `field` in the
replicated store of `d.key` (spec section 6, `Drive.get(key) -> bytes|null`). -/
def getDrive (s : Slashtag) (d : DriveHandle) (field : String) : Option (List Char) :=
  match alookup s.driveData d.key with
  | none => none
  | some data => alookup data field

/-- Modelled from the spec: `SlashDrive.put` lives in the drive package,
which is not under `src/`.  Spec section 6 gives `Drive.put(key, bytes)`;
spec section 3 says a remote identity never exposes a usable secret key,
so a drive resolved without a key pair has no signing capability and a
write to it fails in the collaborator. -/
def putDrive (s : Slashtag) (d : DriveHandle) (field : String) (v : List Char) :
    Except SlashErr Unit × Slashtag :=
  if d.writable then
    let old := (alookup s.driveData d.key).getD []
    (.ok (),
      { s with driveData := (d.key, (field, v) :: old) :: s.driveData })
  else (.error .driveNotWritable, s)

/-- `DRIVE_KEYS.profile`. -/
def profileField : String := "profile.json"

/-- `setProfile(profile)`: `await this.ready()` (with its session
initialization when the flag is unset — there is no remote-identity check
here), then `this.publicDrive?.put(DRIVE_KEYS.profile,
b4a.from(JSON.stringify(profile)))`. -/
def setProfile (s : Slashtag) (p : Json) : Except SlashErr Unit × Slashtag :=
  let s1 := runReady s
  match s1.publicDrive with
  | none => (.ok (), s1)
  | some d => putDrive s1 d profileField p.stringify

/-- `getProfile()`: `await this.ready()`, read `profile.json` from the
public drive; `null` when absent, else `JSON.parse` of the bytes. -/
def getProfile (s : Slashtag) : Except SlashErr (Option Json) × Slashtag :=
  let s1 := runReady s
  match s1.publicDrive with
  | none => (.ok none, s1)
  | some d =>
    match getDrive s1 d profileField with
    | none => (.ok none, s1)
    | some bytes =>
      match jsonParse bytes with
      | some v => (.ok (some v), s1)
      | none => (.error .jsonParseError, s1)

end Slashtag

/-! ## Concrete example states used by witnesses and counterexamples -/

/-- An example key pair. -/
def kpEx : KeyPair := { publicKey := 1, secretKey := 2 }

/-- A freshly constructed local slashtag (built from a key pair). -/
def stLocal : Slashtag := Slashtag.initState (some kpEx) kpEx.publicKey

/-- A freshly constructed remote slashtag (built from a bare public key). -/
def stRemote : Slashtag := Slashtag.initState none 5

/-- A local slashtag on which `ready()` and then `close()` have completed. -/
def stClosed : Slashtag := (Slashtag.close (Slashtag.runReady stLocal)).1

/-- A packages-variant slashtag before `close()` (owning its DHT). -/
def pEx : PSlashtag :=
  { closing := false, closed := false, storeClosed := false, listening := true
    socketsDestroyed := false, dhtDestroyed := false, shouldDestroyDHT := true }

/-! ## Measures and side conditions for the codec roundtrip -/

mutual

/-- Nesting measure of a JSON value (bounds the reader fuel). -/
def jm : Json → Nat
  | .null => 1
  | .bool _ => 1
  | .num _ => 1
  | .str _ => 1
  | .arr xs => 1 + jml xs
  | .obj kvs => 1 + jmo kvs

/-- Nesting measure of an element list. -/
def jml : List Json → Nat
  | [] => 0
  | x :: xs => jm x + jml xs + 1

/-- Nesting measure of a field list. -/
def jmo : List (List Char × Json) → Nat
  | [] => 0
  | (_, v) :: kvs => jm v + jmo kvs + 1

end

/-- A rendered value may only be followed by end of input or by a
separator or closer (codes 44 `,`, 93 `]`, 125 closing brace) — the
continuations `stringify` actually produces.  Needed because a decimal
number would otherwise swallow a following digit. -/
def boundaryB : List Char → Bool
  | [] => true
  | c :: _ => c.toNat = 44 || c.toNat = 93 || c.toNat = 125

/-- How many times the discovery topic of key `k` has been announced on
the slashtag's swarm session (`swarm.join(drive.discoveryKey, ...)`). -/
def Slashtag.announceCount (s : Slashtag) (k : Key) : Nat :=
  match s.swarm with
  | none => 0
  | some w => w.joinedTopics.count k

/-- The local example slashtag after `ready()` completed. -/
def stReady : Slashtag := Slashtag.runReady stLocal

/-- The public-drive handle of `stReady`. -/
def dEx : DriveHandle := { instId := 0, key := 1, writable := true }

deriving instance DecidableEq for Except

/-! ## Helper lemmas about the registries and the lifecycle -/

/-- Looking up the key just inserted hits the new entry. -/
theorem alookup_cons_self {α β : Type} [BEq α] [LawfulBEq α]
    (l : List (α × β)) (k : α) (v : β) : alookup ((k, v) :: l) k = some v := by
  simp [alookup]

/-- Inserting under a different key does not affect a lookup. -/
theorem alookup_cons_ne {α β : Type} [BEq α] [LawfulBEq α]
    (l : List (α × β)) (k k' : α) (v : β) (h : k' ≠ k) :
    alookup ((k', v) :: l) k = alookup l k := by
  simp [alookup, List.find?_cons, h]

/-- On a cache miss `driveCore` returns the fresh handle, caches it and
joins its discovery topic. -/
theorem driveCore_miss (s : Slashtag) (dk : Key) (w : Bool)
    (h : alookup s.drives dk = none) :
    Slashtag.driveCore s dk w =
      ({ instId := s.freshCounter, key := dk, writable := w },
        { s with
          freshCounter := s.freshCounter + 1
          drives := (dk, { instId := s.freshCounter, key := dk, writable := w }) :: s.drives
          swarm := Slashtag.joinTopic s.swarm dk }) := by
  unfold Slashtag.driveCore
  simp [h]

/-- On a cache hit `driveCore` returns the cached handle and discards the
fresh one (only the object-identity counter moves). -/
theorem driveCore_hit (s : Slashtag) (dk : Key) (w : Bool) (e : DriveHandle)
    (h : alookup s.drives dk = some e) :
    Slashtag.driveCore s dk w = (e, { s with freshCounter := s.freshCounter + 1 }) := by
  unfold Slashtag.driveCore
  simp [h]

/-- `ready()` is a no-op once the `_ready` flag is set. -/
theorem runReady_of_ready (s : Slashtag) (h : s.readyFlag = true) :
    Slashtag.runReady s = s := by
  unfold Slashtag.runReady
  simp [h]

/-- `driveCore` changes none of the identity fields of the state. -/
theorem driveCore_fields (s : Slashtag) (dk : Key) (w : Bool) :
    (Slashtag.driveCore s dk w).2.remote = s.remote
    ∧ (Slashtag.driveCore s dk w).2.key = s.key
    ∧ (Slashtag.driveCore s dk w).2.readyFlag = s.readyFlag
    ∧ (Slashtag.driveCore s dk w).2.keyPair = s.keyPair
    ∧ (Slashtag.driveCore s dk w).2.closed = s.closed := by
  cases halk : alookup s.drives dk with
  | none => rw [driveCore_miss s dk w halk]; exact ⟨rfl, rfl, rfl, rfl, rfl⟩
  | some e => rw [driveCore_hit s dk w e halk]; exact ⟨rfl, rfl, rfl, rfl, rfl⟩

/-- `ready()` changes neither `remote` nor `key`. -/
theorem runReady_remote (s : Slashtag) : (Slashtag.runReady s).remote = s.remote := by
  unfold Slashtag.runReady
  split
  · rfl
  · exact (driveCore_fields _ _ _).1

/-- `ready()` preserves the slashtag's own key. -/
theorem runReady_key (s : Slashtag) : (Slashtag.runReady s).key = s.key := by
  unfold Slashtag.runReady
  split
  · rfl
  · exact (driveCore_fields _ _ _).2.1

/-- After `ready()` the `_ready` flag is set. -/
theorem runReady_flag (s : Slashtag) : (Slashtag.runReady s).readyFlag = true := by
  unfold Slashtag.runReady
  split
  · assumption
  · exact (driveCore_fields _ _ _).2.2.1

/-- Full characterization of `ready()` from an uninitialized state whose
drive cache has no entry for the slashtag's own key: one DHT and one
swarm are created, the flag is set, and the default public drive is
created, cached and announced. -/
theorem runReady_unready (s : Slashtag) (hf : s.readyFlag = false)
    (hd : alookup s.drives s.key = none) :
    Slashtag.runReady s =
      { s with
        dhtCreated := s.dhtCreated + 1
        swarmCreated := s.swarmCreated + 1
        readyFlag := true
        freshCounter := s.freshCounter + 1
        drives := (s.key,
          { instId := s.freshCounter, key := s.key, writable := s.keyPair.isSome }) :: s.drives
        swarm := some
          { destroyed := false, listening := false, conns := []
            joinedTopics := [s.key], joinPeerCount := 0 }
        publicDrive := some
          { instId := s.freshCounter, key := s.key, writable := s.keyPair.isSome } } := by
  have hmiss := driveCore_miss
    { s with
      dhtCreated := s.dhtCreated + 1
      swarmCreated := s.swarmCreated + 1
      swarm := some
        { destroyed := false, listening := false, conns := []
          joinedTopics := [], joinPeerCount := 0 }
      readyFlag := true }
    s.key s.keyPair.isSome hd
  simp only [Slashtag.runReady, hf, Bool.false_eq_true, if_false]
  rw [hmiss]
  simp [Slashtag.joinTopic]

/-- `close()` always leaves the `closed` flag set. -/
theorem close_sets_closed (s : Slashtag) : (Slashtag.close s).1.closed = true := by
  by_cases h : s.closed = true
  · simp [Slashtag.close, h]
  · cases hsw : s.swarm <;> simp [Slashtag.close, h, hsw]

/-- The packages-variant `close()` always leaves `_closing` set. -/
theorem pClose_sets_closing (p : PSlashtag) : (PSlashtag.close p).1.closing = true := by
  unfold PSlashtag.close
  split
  · assumption
  · rfl

/-! ## Claim theorems -/

/-- C7: the constructor resolves the public key with precedence
`keyPair`, then `key`, then `url` (first present wins), and fails
synchronously with the missing-key error when none yields a key, in which
case no object is constructed (the result carries no state). -/
theorem create_key_precedence (kp : KeyPair) (okey ourl : Option Key) (k u : Key) :
    Slashtag.create (some kp) okey ourl = .ok (Slashtag.initState (some kp) kp.publicKey)
    ∧ Slashtag.create none (some k) ourl = .ok (Slashtag.initState none k)
    ∧ Slashtag.create none none (some u) = .ok (Slashtag.initState none u)
    ∧ Slashtag.create none none none = .error .missingKey :=
  ⟨rfl, rfl, rfl, rfl⟩

/-- C10: `connect` validates (remote-identity check, key resolution,
self-target comparison) before `await this.ready()`: a call failing for
either reason returns the error with the state unchanged — no DHT, swarm
or connection is created. -/
theorem connect_validates_before_ready (s : Slashtag) (t : Slashtag.ConnectTarget) :
    (s.remote = true → Slashtag.connect s t = (.error .remoteConnect, s))
    ∧ (s.remote = false → Slashtag.resolveTarget t = s.key →
        Slashtag.connect s t = (.error .selfConnect, s)) := by
  constructor
  · intro h
    simp [Slashtag.connect, h]
  · intro h1 h2
    simp [Slashtag.connect, h1, h2]

/-- C10 witness: a remote slashtag's `connect` and a self-targeted
`connect` both fail with the state untouched. -/
theorem connect_validates_before_ready_witness :
    Slashtag.connect stRemote (.raw 1) = (.error .remoteConnect, stRemote)
    ∧ Slashtag.connect stLocal (.raw 1) = (.error .selfConnect, stLocal) :=
  ⟨(connect_validates_before_ready stRemote (.raw 1)).1 (by decide),
   (connect_validates_before_ready stLocal (.raw 1)).2 (by decide) (by decide)⟩

/-- C9: `close()` on a slashtag whose `ready()` never ran (no swarm)
marks it closed and emits the close event, but returns before
`this.store.close()`: the namespaced store stays open. -/
theorem close_without_ready_leaves_store_open (s : Slashtag)
    (h1 : s.closed = false) (h2 : s.swarm = none) :
    Slashtag.close s = ({ s with closed := true }, [.markClosed, .emitClose])
    ∧ (Slashtag.close s).1.storeClosed = s.storeClosed := by
  have h : Slashtag.close s = ({ s with closed := true }, [.markClosed, .emitClose]) := by
    simp [Slashtag.close, h1, h2]
  exact ⟨h, by rw [h]⟩

/-- C9 witness: closing the fresh local slashtag (never readied). -/
theorem close_without_ready_leaves_store_open_witness :
    Slashtag.close stLocal = ({ stLocal with closed := true }, [.markClosed, .emitClose])
    ∧ (Slashtag.close stLocal).1.storeClosed = stLocal.storeClosed :=
  close_without_ready_leaves_store_open stLocal (by decide) (by decide)

/-- C6 counterexample: in the `packages/slashtag/index.js` implementation,
`close()` closes the corestore FIRST and marks-closed/emits LAST — the
opposite of the claimed order (mark closed and emit, then transport, then
store). -/
theorem packages_close_order_cex :
    (PSlashtag.close pEx).2
      = [.closeCorestore, .unlisten, .destroySockets, .destroyDht, .setClosed, .emitClose]
    ∧ (PSlashtag.close pEx).2.head? = some .closeCorestore
    ∧ (PSlashtag.close pEx).2.getLast? = some .emitClose := by
  decide

/-- C6 amended: in the main library implementation `close()` is
idempotent, proceeds mark-closed, emit, destroy swarm, close store (in
that order), and tolerates `ready()` never having run (it returns after
the emit without touching the store); the packages implementation is also
idempotent (memoized `_closing`), but it closes the store first and
marks-closed/emits last. -/
theorem close_idempotent_and_ordered (s : Slashtag) (w : SwarmState)
    (h1 : s.closed = false) :
    (s.swarm = some w →
      (Slashtag.close s).2 = [.markClosed, .emitClose, .destroySwarm, .closeStore])
    ∧ (s.swarm = none → (Slashtag.close s).2 = [.markClosed, .emitClose])
    ∧ (∀ s' : Slashtag, Slashtag.close (Slashtag.close s').1 = ((Slashtag.close s').1, []))
    ∧ (∀ p : PSlashtag, PSlashtag.close (PSlashtag.close p).1 = ((PSlashtag.close p).1, [])) := by
  refine ⟨?_, ?_, ?_, ?_⟩
  · intro h
    simp [Slashtag.close, h1, h]
  · intro h
    simp [Slashtag.close, h1, h]
  · intro s'
    have h := close_sets_closed s'
    generalize (Slashtag.close s').1 = x at h ⊢
    simp [Slashtag.close, h]
  · intro p
    have h := pClose_sets_closing p
    generalize (PSlashtag.close p).1 = x at h ⊢
    simp [PSlashtag.close, h]

/-- C6 witness: the readied example slashtag closes in the claimed order. -/
theorem close_idempotent_and_ordered_witness :
    (Slashtag.close stReady).2 = [.markClosed, .emitClose, .destroySwarm, .closeStore] :=
  (close_idempotent_and_ordered stReady ⟨false, false, [], [1], 0⟩ (by decide)).1 (by decide)

/-- C1 counterexample: after `close()` has completed, `protocol()` does
not fail with an already-closed error and is no no-op: it succeeds and
registers a brand-new protocol instance. -/
theorem protocol_after_close_cex :
    stClosed.closed = true
    ∧ (Slashtag.protocolOp stClosed "chat").1 = .ok { name := "chat", instId := 1 }
    ∧ alookup (Slashtag.protocolOp stClosed "chat").2.protocols "chat"
        = some { name := "chat", instId := 1 } := by
  decide

/-- C1 amended: `close()` sets the `closed` flag, but `connect()`,
`drive()` and `protocol()` never consult it: on a closed (non-remote)
slashtag, `protocol()` succeeds and caches a new instance, `connect()`
proceeds to dial on the (destroyed) swarm, and `drive()` succeeds in
creating and caching a drive handle — no already-closed failure exists. -/
theorem no_closed_guard_after_close (s : Slashtag) (w : SwarmState) (n : String) (k K : Key)
    (hc : s.closed = true) (hr : s.remote = false)
    (hp : alookup s.protocols n = none)
    (hf : s.readyFlag = true) (hw : s.swarm = some w)
    (hk : alookup w.conns k = none) (hks : k ≠ s.key)
    (hK : alookup s.drives K = none) :
    (Slashtag.protocolOp s n).1 = .ok { name := n, instId := s.freshCounter }
    ∧ (Slashtag.connect s (.raw k)).1 = .ok { connId := s.freshCounter, peerKey := k }
    ∧ (Slashtag.drive s { key := some K, keyPair := none }).1
        = .ok ({ instId := s.freshCounter, key := K, writable := false },
            (Slashtag.drive s { key := some K, keyPair := none }).2) := by
  refine ⟨?_, ?_, ?_⟩
  · simp [Slashtag.protocolOp, hr, hp]
  · simp [Slashtag.connect, hr, Slashtag.resolveTarget, hks,
      runReady_of_ready s hf, hw, hk]
  · simp [Slashtag.drive, runReady_of_ready s hf, Slashtag.resolveDriveKey,
      driveCore_miss s K false hK]

/-- C1 amended witness: on the closed example slashtag, `protocol`,
`connect` and `drive` all still succeed. -/
theorem no_closed_guard_after_close_witness :
    (Slashtag.protocolOp stClosed "chat").1
        = .ok { name := "chat", instId := stClosed.freshCounter }
    ∧ (Slashtag.connect stClosed (.raw 5)).1
        = .ok { connId := stClosed.freshCounter, peerKey := 5 }
    ∧ (Slashtag.drive stClosed { key := some 7, keyPair := none }).1
        = .ok ({ instId := stClosed.freshCounter, key := 7, writable := false },
            (Slashtag.drive stClosed { key := some 7, keyPair := none }).2) :=
  no_closed_guard_after_close stClosed ⟨true, false, [], [1], 0⟩ "chat" 5 7
    (by decide) (by decide) (by decide) (by decide) (by decide) (by decide)
    (by decide) (by decide)

/-- C2 counterexample: two `ready()` calls interleaved at the `await`
boundaries (both run their flag check before either resumes) BOTH run
session initialization: two DHTs and two swarms are created, not one. -/
theorem ready_concurrent_double_init_cex :
    sched [false, true, false, true, false, true] (.p0, .p0, rInit)
      = (.pdone, .pdone,
          { flag := true, dht := 2, swarmc := 2, driveCached := true, driveInserts := 1 })
    ∧ (sched [false, true, false, true, false, true] (.p0, .p0, rInit)).2.2.dht = 2
    ∧ (sched [false, true, false, true, false, true] (.p0, .p0, rInit)).2.2.swarmc = 2 := by
  decide

/-- C2 amended: `ready()` is memoized only against sequential calls: once
the `_ready` flag is set, a later invocation completes at its first block
with no initialization; a single uninterleaved call initializes exactly
once; but the flag is set only after the first `await`, so concurrent
first calls (see the counterexample) each initialize. -/
theorem ready_memoized_only_sequentially (s : RState) (h : s.flag = true) :
    readyStep (.p0, s) = (.pdone, s)
    ∧ sched [false, false, false] (.p0, .p0, rInit)
        = (.pdone, .p0,
            { flag := true, dht := 1, swarmc := 1, driveCached := true, driveInserts := 1 }) := by
  constructor
  · simp [readyStep, h]
  · decide

/-- C2 amended witness: a `ready()` call arriving after a completed one
performs no initialization. -/
theorem ready_memoized_only_sequentially_witness :
    readyStep (.p0, ⟨true, 1, 1, true, 1⟩) = (.pdone, ⟨true, 1, 1, true, 1⟩)
    ∧ sched [false, false, false] (.p0, .p0, rInit)
        = (.pdone, .p0,
            { flag := true, dht := 1, swarmc := 1, driveCached := true, driveInserts := 1 }) :=
  ready_memoized_only_sequentially ⟨true, 1, 1, true, 1⟩ (by decide)

/-- C3 counterexample: `setProfile` on a remote slashtag does NOT fail
with a remote-identity error and does not leave the state untouched: it
runs the full session initialization (a DHT and a swarm are created) and
then fails inside the drive collaborator write. -/
theorem setProfile_remote_no_guard_cex :
    stRemote.remote = true
    ∧ (Slashtag.setProfile stRemote Json.null).1 = .error .driveNotWritable
    ∧ SlashErr.isRemoteIdentity .driveNotWritable = false
    ∧ (Slashtag.setProfile stRemote Json.null).2.dhtCreated = 1
    ∧ (Slashtag.setProfile stRemote Json.null).2.swarmCreated = 1 := by
  decide

/-- C3 amended: on a remote slashtag, `listen()`, `connect()` and
`protocol()` fail with the corresponding remote-identity error and leave
the state unchanged; `setProfile()` however has no remote-identity guard:
it initializes the session (DHT and swarm are created) and its failure
comes from the unwritable public drive, not from a remote-identity
check. -/
theorem remote_identity_guards (s : Slashtag) (t : Slashtag.ConnectTarget) (n : String)
    (p : Json) (hr : s.remote = true) (hkp : s.keyPair = none) (hf : s.readyFlag = false)
    (hd : alookup s.drives s.key = none) :
    Slashtag.listen s = (.error .remoteListen, s)
    ∧ Slashtag.connect s t = (.error .remoteConnect, s)
    ∧ Slashtag.protocolOp s n = (.error .remoteProtocol, s)
    ∧ (Slashtag.setProfile s p).1 = .error .driveNotWritable
    ∧ (Slashtag.setProfile s p).2.dhtCreated = s.dhtCreated + 1
    ∧ (Slashtag.setProfile s p).2.swarmCreated = s.swarmCreated + 1 := by
  have hrun := runReady_unready s hf hd
  simp only [hkp, Option.isSome_none] at hrun
  refine ⟨by simp [Slashtag.listen, hr], by simp [Slashtag.connect, hr],
    by simp [Slashtag.protocolOp, hr], ?_, ?_, ?_⟩ <;>
    simp [Slashtag.setProfile, hrun, Slashtag.putDrive]

/-- C3 amended witness: the fresh remote slashtag exhibits all four
behaviours. -/
theorem remote_identity_guards_witness :
    Slashtag.listen stRemote = (.error .remoteListen, stRemote)
    ∧ Slashtag.connect stRemote (.raw 1) = (.error .remoteConnect, stRemote)
    ∧ Slashtag.protocolOp stRemote "chat" = (.error .remoteProtocol, stRemote)
    ∧ (Slashtag.setProfile stRemote Json.null).1 = .error .driveNotWritable
    ∧ (Slashtag.setProfile stRemote Json.null).2.dhtCreated = stRemote.dhtCreated + 1
    ∧ (Slashtag.setProfile stRemote Json.null).2.swarmCreated = stRemote.swarmCreated + 1 :=
  remote_identity_guards stRemote (.raw 1) "chat" Json.null
    (by decide) (by decide) (by decide) (by decide)

/-- After `driveCore`, the cache holds the returned handle under the
resolved key. -/
theorem driveCore_caches (s : Slashtag) (dk : Key) (w : Bool) :
    alookup (Slashtag.driveCore s dk w).2.drives dk = some (Slashtag.driveCore s dk w).1 := by
  cases halk : alookup s.drives dk with
  | none => rw [driveCore_miss s dk w halk]; exact alookup_cons_self _ _ _
  | some e => rw [driveCore_hit s dk w e halk]; exact halk

/-- `ready()` from an uninitialized state whose drive cache already holds
an entry under the slashtag's own key: the session is initialized but the
cached handle is reused (no insert, no announcement). -/
theorem runReady_unready_hit (s : Slashtag) (e : DriveHandle) (hf : s.readyFlag = false)
    (hd : alookup s.drives s.key = some e) :
    Slashtag.runReady s =
      { s with
        dhtCreated := s.dhtCreated + 1
        swarmCreated := s.swarmCreated + 1
        readyFlag := true
        freshCounter := s.freshCounter + 1
        swarm := some
          { destroyed := false, listening := false, conns := []
            joinedTopics := [], joinPeerCount := 0 }
        publicDrive := some e } := by
  have hhit := driveCore_hit
    { s with
      dhtCreated := s.dhtCreated + 1
      swarmCreated := s.swarmCreated + 1
      swarm := some
        { destroyed := false, listening := false, conns := []
          joinedTopics := [], joinPeerCount := 0 }
      readyFlag := true }
    s.key s.keyPair.isSome e hd
  simp only [Slashtag.runReady, hf, Bool.false_eq_true, if_false]
  rw [hhit]

/-- The second call of `ready()` preserves the flag seen by `driveCore`
results. -/
theorem driveCore_result_flag (s : Slashtag) (dk : Key) (w : Bool) :
    (Slashtag.driveCore s dk w).2.readyFlag = s.readyFlag :=
  (driveCore_fields s dk w).2.2.1

/-- C4: if `connect(X)` succeeded, a second `connect(X)` (with no close
in between) returns the very same connection object and changes nothing —
in particular it issues no second transport-level dial. -/
theorem connect_cached_connection (s : Slashtag) (t : Slashtag.ConnectTarget)
    (c : Slashtag.ConnOut) (h : (Slashtag.connect s t).1 = .ok c) :
    Slashtag.connect (Slashtag.connect s t).2 t = (.ok c, (Slashtag.connect s t).2) := by
  by_cases hr : s.remote = true
  · simp [Slashtag.connect, hr] at h
  · replace hr : s.remote = false := by simpa using hr
    by_cases hk : Slashtag.resolveTarget t = s.key
    · simp [Slashtag.connect, hr, hk] at h
    · rcases hw : (Slashtag.runReady s).swarm with _ | w
      · simp [Slashtag.connect, hr, hk, hw] at h
      · rcases hc2 : alookup w.conns (Slashtag.resolveTarget t) with _ | cid
        · have hfst : Slashtag.connect s t
              = (.ok ⟨(Slashtag.runReady s).freshCounter, Slashtag.resolveTarget t⟩,
                  { Slashtag.runReady s with
                    swarm := some
                      { w with
                        conns := (Slashtag.resolveTarget t,
                          (Slashtag.runReady s).freshCounter) :: w.conns
                        joinPeerCount := w.joinPeerCount + 1 }
                    freshCounter := (Slashtag.runReady s).freshCounter + 1 }) := by
            simp [Slashtag.connect, hr, hk, hw, hc2]
          rw [hfst] at h ⊢
          have hcval : c
              = ⟨(Slashtag.runReady s).freshCounter, Slashtag.resolveTarget t⟩ := by
            simpa using h.symm
          subst hcval
          simp [Slashtag.connect, runReady_remote, hr, runReady_key, hk,
            runReady_of_ready, runReady_flag, alookup_cons_self]
        · have hfst : Slashtag.connect s t
              = (.ok ⟨cid, Slashtag.resolveTarget t⟩, Slashtag.runReady s) := by
            simp [Slashtag.connect, hr, hk, hw, hc2]
          rw [hfst] at h ⊢
          have hcval : c = ⟨cid, Slashtag.resolveTarget t⟩ := by
            simpa using h.symm
          subst hcval
          simp [Slashtag.connect, runReady_remote, hr, runReady_key, hk,
            runReady_of_ready, runReady_flag, hw, hc2]

/-- C4 witness: on the fresh local slashtag a first `connect(5)` succeeds
and a repeated `connect(5)` returns the same connection with no state
change. -/
theorem connect_cached_connection_witness :
    (Slashtag.connect stLocal (.raw 5)).1 = .ok ⟨1, 5⟩
    ∧ Slashtag.connect (Slashtag.connect stLocal (.raw 5)).2 (.raw 5)
        = (.ok ⟨1, 5⟩, (Slashtag.connect stLocal (.raw 5)).2) :=
  ⟨by decide, connect_cached_connection stLocal (.raw 5) ⟨1, 5⟩ (by decide)⟩

/-- C5: for a key `K` with no cached drive, two `drive({key: K})` calls
return the identical cached in-memory handle (the second call constructs
a fresh handle — the object counter moves — but discards it and returns
the cached one), and the discovery announcement for `K` happens exactly
once across both calls.  The two auxiliary hypotheses are the reachable
state invariant: a swarm session exists exactly when `_ready` is set. -/
theorem drive_cached_and_announced_once (s : Slashtag) (K : Key)
    (h1 : alookup s.drives K = none)
    (h2 : s.readyFlag = true → s.swarm.isSome = true)
    (h3 : s.readyFlag = false → s.swarm = none) :
    ∃ d s1 s2,
      Slashtag.drive s { key := some K, keyPair := none } = (.ok (d, s1), s1)
      ∧ Slashtag.drive s1 { key := some K, keyPair := none } = (.ok (d, s2), s2)
      ∧ s1.announceCount K = s.announceCount K + 1
      ∧ s2.announceCount K = s1.announceCount K
      ∧ s2.freshCounter = s1.freshCounter + 1 := by
  have hflag1 : (Slashtag.driveCore (Slashtag.runReady s) K false).2.readyFlag = true := by
    rw [driveCore_result_flag]
    exact runReady_flag s
  have hrun1 := runReady_of_ready _ hflag1
  have hhit := driveCore_hit (Slashtag.driveCore (Slashtag.runReady s) K false).2 K false
    (Slashtag.driveCore (Slashtag.runReady s) K false).1
    (driveCore_caches (Slashtag.runReady s) K false)
  refine ⟨(Slashtag.driveCore (Slashtag.runReady s) K false).1,
    (Slashtag.driveCore (Slashtag.runReady s) K false).2,
    { (Slashtag.driveCore (Slashtag.runReady s) K false).2 with
      freshCounter := (Slashtag.driveCore (Slashtag.runReady s) K false).2.freshCounter + 1 },
    rfl, ?_, ?_, ?_, ?_⟩
  · simp [Slashtag.drive, hrun1, Slashtag.resolveDriveKey, hhit]
  · cases hfl : s.readyFlag with
    | true =>
      rcases hswo : s.swarm with _ | w
      · exact absurd (h2 hfl) (by simp [hswo])
      · rw [runReady_of_ready s hfl, driveCore_miss s K false h1]
        simp [Slashtag.announceCount, Slashtag.joinTopic, hswo, List.count_cons_self]
    | false =>
      have hsn := h3 hfl
      by_cases hks : K = s.key
      · rw [runReady_unready s hfl (hks ▸ h1)]
        rw [driveCore_hit _ K false
          { instId := s.freshCounter, key := s.key, writable := s.keyPair.isSome }
          (by rw [hks]; exact alookup_cons_self _ _ _)]
        simp [Slashtag.announceCount, hsn, hks]
      · rcases hin : alookup s.drives s.key with _ | e
        · rw [runReady_unready s hfl hin]
          rw [driveCore_miss _ K false
            (by rw [alookup_cons_ne _ _ _ _ (Ne.symm hks)]; exact h1)]
          simp [Slashtag.announceCount, Slashtag.joinTopic, hsn,
            List.count_cons_self, List.count_cons_of_ne hks]
        · rw [runReady_unready_hit s e hfl hin]
          rw [driveCore_miss]
          · simp [Slashtag.announceCount, Slashtag.joinTopic, hsn]
          · exact h1
  · simp [Slashtag.announceCount]
  · rfl

/-- C5 witness: on the fresh local slashtag the two `drive({key: 7})`
calls exhibit the cached handle and the single announcement. -/
theorem drive_cached_and_announced_once_witness :
    alookup stLocal.drives (7 : Key) = none
    ∧ ∃ d s1 s2,
        Slashtag.drive stLocal { key := some 7, keyPair := none } = (.ok (d, s1), s1)
        ∧ Slashtag.drive s1 { key := some 7, keyPair := none } = (.ok (d, s2), s2)
        ∧ s1.announceCount 7 = stLocal.announceCount 7 + 1
        ∧ s2.announceCount 7 = s1.announceCount 7
        ∧ s2.freshCounter = s1.freshCounter + 1 :=
  ⟨by decide, drive_cached_and_announced_once stLocal 7 (by decide) (by decide) (by decide)⟩

/-! ## Codec roundtrip, part 1: characters, digits and numbers -/

/-- Code point of the quote character. -/
theorem qCh_toNat : qCh.toNat = 34 := by decide

/-- Code point of the backslash character. -/
theorem bsCh_toNat : bsCh.toNat = 92 := by decide

/-- Digit characters satisfy the digit predicate. -/
theorem digitChar_isDigit (d : Nat) (h : d < 10) : isDigitCh (digitChar d) = true := by
  interval_cases d <;> decide

/-- Digit characters decode to their value. -/
theorem digitVal_digitChar (d : Nat) (h : d < 10) : digitVal (digitChar d) = d := by
  interval_cases d <;> decide

/-- Every extracted decimal digit is below ten. -/
theorem natDigitsAux_lt (fuel : Nat) : ∀ n, ∀ d ∈ natDigitsAux fuel n, d < 10 := by
  induction fuel with
  | zero => intro n d hd; simp [natDigitsAux] at hd
  | succ f ih =>
    intro n d hd
    cases n with
    | zero => simp [natDigitsAux] at hd
    | succ m =>
      simp only [natDigitsAux, List.mem_cons] at hd
      rcases hd with h | h
      · subst h; exact Nat.mod_lt _ (by omega)
      · exact ih _ _ h

/-- Folding the extracted digits (least significant first) recovers the
number. -/
theorem natDigitsAux_foldr (fuel : Nat) : ∀ n, n ≤ fuel →
    (natDigitsAux fuel n).foldr (fun d a => 10 * a + d) 0 = n := by
  induction fuel with
  | zero => intro n h; interval_cases n; simp [natDigitsAux]
  | succ f ih =>
    intro n h
    cases n with
    | zero => simp [natDigitsAux]
    | succ m =>
      have hlt : (m + 1) / 10 < m + 1 := Nat.div_lt_self (Nat.succ_pos m) (by omega)
      simp only [natDigitsAux, List.foldr_cons]
      rw [ih _ (by omega)]
      omega

/-- The decimal rendering consists of digit characters only. -/
theorem natChars_all_digits (n : Nat) : ∀ c ∈ natChars n, isDigitCh c = true := by
  cases n with
  | zero =>
    intro c hc
    simp only [natChars, List.mem_singleton] at hc
    subst hc
    decide
  | succ m =>
    intro c hc
    simp only [natChars, List.mem_reverse, List.mem_map] at hc
    rcases hc with ⟨d, hd, rfl⟩
    exact digitChar_isDigit d (natDigitsAux_lt _ _ _ hd)

/-- The decimal rendering is never empty. -/
theorem natChars_ne_nil (n : Nat) : natChars n ≠ [] := by
  cases n with
  | zero => simp [natChars]
  | succ m => simp [natChars, natDigitsAux]

/-- Folding digit characters over the rendered form recovers the
number. -/
theorem foldl_digitChar_eq (L : List Nat) (hL : ∀ d ∈ L, d < 10) :
    ((L.map digitChar).reverse).foldl (fun a c => 10 * a + digitVal c) 0
      = L.foldr (fun d a => 10 * a + d) 0 := by
  rw [List.foldl_reverse]
  induction L with
  | nil => rfl
  | cons d L ih =>
    simp only [List.map_cons, List.foldr_cons]
    rw [digitVal_digitChar d (hL d (by simp))]
    rw [ih (fun x hx => hL x (by simp [hx]))]

/-- Evaluating the decimal rendering of `n` yields `n`. -/
theorem natChars_val (n : Nat) :
    (natChars n).foldl (fun a c => 10 * a + digitVal c) 0 = n := by
  cases n with
  | zero => decide
  | succ m =>
    simp only [natChars]
    rw [foldl_digitChar_eq _ (natDigitsAux_lt _ _)]
    exact natDigitsAux_foldr _ _ (le_refl _)

/-! ## Codec roundtrip, part 2: digit runs and strings -/

/-- `takeWhile`/`dropWhile` split an all-satisfying prefix exactly at a
non-satisfying (or absent) head of the remainder. -/
theorem takeWhile_append_all (p : Char → Bool) (l r : List Char)
    (hl : ∀ c ∈ l, p c = true) (hr : ∀ c, r.head? = some c → p c = false) :
    (l ++ r).takeWhile p = l ∧ (l ++ r).dropWhile p = r := by
  induction l with
  | nil =>
    simp only [List.nil_append]
    cases r with
    | nil => simp
    | cons c r' =>
      have hc := hr c rfl
      simp [List.takeWhile_cons, List.dropWhile_cons, hc]
  | cons c l' ih =>
    have hc := hl c (by simp)
    have ih' := ih (fun x hx => hl x (by simp [hx]))
    simp [List.takeWhile_cons, List.dropWhile_cons, hc, ih'.1, ih'.2]

/-- Reading a rendered number followed by a non-digit continuation
consumes exactly the digits and returns the value. -/
theorem readNat_natChars (n : Nat) (rest : List Char)
    (hrest : ∀ c, rest.head? = some c → isDigitCh c = false) :
    readNat (natChars n ++ rest) = some (n, rest) := by
  have hsplit := takeWhile_append_all isDigitCh (natChars n) rest (natChars_all_digits n) hrest
  have hne := natChars_ne_nil n
  simp [readNat, hsplit.1, hsplit.2, List.isEmpty_iff, hne, natChars_val n]

/-- A separator or closer (or end of input) never starts with a digit. -/
theorem boundary_no_digit (rest : List Char) (hb : boundaryB rest = true) :
    ∀ c, rest.head? = some c → isDigitCh c = false := by
  intro c hc
  cases rest with
  | nil => simp at hc
  | cons d r =>
    simp only [List.head?_cons, Option.some.injEq] at hc
    subst hc
    simp only [boundaryB, Bool.or_eq_true, decide_eq_true_eq] at hb
    simp only [isDigitCh, Bool.and_eq_false_iff, decide_eq_false_iff_not]
    omega

/-- Reading a backslash takes the next character verbatim. -/
theorem readStr_esc (d : Char) (cs : List Char) :
    readStr (bsCh :: d :: cs) =
      match readStr cs with
      | some (sr, r) => some (d :: sr, r)
      | none => none := rfl

/-- Reading a quote closes the string. -/
theorem readStr_close (cs : List Char) : readStr (qCh :: cs) = some ([], cs) := by
  conv_lhs => unfold readStr
  norm_num [qCh_toNat]

/-- Reading any other character keeps it. -/
theorem readStr_plain (c : Char) (cs : List Char)
    (h1 : ¬c.toNat = 92) (h2 : ¬c.toNat = 34) :
    readStr (c :: cs) =
      match readStr cs with
      | some (sr, r) => some (c :: sr, r)
      | none => none := by
  conv_lhs => unfold readStr
  rw [if_neg h1, if_neg h2]

/-- Reading back an escaped string body up to the closing quote undoes
the escaping. -/
theorem readStr_round (s rest : List Char) :
    readStr (escapeStr s ++ qCh :: rest) = some (s, rest) := by
  induction s with
  | nil =>
    simp only [escapeStr, List.nil_append]
    exact readStr_close rest
  | cons c s' ih =>
    by_cases hc : c.toNat = 34 ∨ c.toNat = 92
    · have he : escapeChar c = [bsCh, c] := by unfold escapeChar; rw [if_pos hc]
      simp only [escapeStr, he, List.cons_append, List.nil_append, List.append_assoc]
      rw [readStr_esc, ih]
    · have h1 : ¬c.toNat = 92 := fun h => hc (Or.inr h)
      have h2 : ¬c.toNat = 34 := fun h => hc (Or.inl h)
      have he : escapeChar c = [c] := by unfold escapeChar; rw [if_neg hc]
      simp only [escapeStr, he, List.cons_append, List.singleton_append, List.nil_append]
      rw [readStr_plain c _ h1 h2, ih]

/-! ## Codec roundtrip, part 3: measures bound the rendered length -/

/-- Every JSON value has positive measure. -/
theorem jm_pos (v : Json) : 1 ≤ jm v := by
  cases v <;> simp [jm]

/-- A nonempty element list has positive measure. -/
theorem jml_pos (x : Json) (xs : List Json) : 1 ≤ jml (x :: xs) := by
  simp [jml]

/-- A nonempty field list has positive measure. -/
theorem jmo_pos (kv : List Char × Json) (kvs : List (List Char × Json)) :
    1 ≤ jmo (kv :: kvs) := by
  rcases kv with ⟨k, v⟩
  simp [jmo]

/-- The rendering of an integer is never empty. -/
theorem intChars_ne_nil (n : Int) : 1 ≤ (intChars n).length := by
  unfold intChars
  split
  · simp
  · have := natChars_ne_nil n.toNat
    cases hnc : natChars n.toNat with
    | nil => exact absurd hnc this
    | cons c cs => simp [hnc]

/-- The measure of a value is at most the length of its rendering
(so an input-length fuel suffices for the reader). -/
theorem jm_len_bound (N : Nat) :
    (∀ v : Json, jm v ≤ N → jm v ≤ v.stringify.length)
    ∧ (∀ xs : List Json, jml xs ≤ N → jml xs ≤ (strElems xs).length + 1)
    ∧ (∀ kvs : List (List Char × Json), jmo kvs ≤ N → jmo kvs ≤ (strFields kvs).length + 1) := by
  induction N with
  | zero =>
    refine ⟨fun v hv => absurd hv (by have := jm_pos v; omega), fun xs hxs => ?_,
      fun kvs hk => ?_⟩
    · cases xs with
      | nil => simp [jml]
      | cons x xs => exact absurd hxs (by have := jml_pos x xs; omega)
    · cases kvs with
      | nil => simp [jmo]
      | cons kv kvs => exact absurd hk (by have := jmo_pos kv kvs; omega)
  | succ N ih =>
    obtain ⟨ihv, ihl, iho⟩ := ih
    refine ⟨?_, ?_, ?_⟩
    · intro v hv
      cases v with
      | null => simp [jm, Json.stringify, nullChars]
      | bool b => cases b <;> simp [jm, Json.stringify, trueChars, falseChars]
      | num n =>
        have h1 := intChars_ne_nil n
        simp only [jm, Json.stringify]
        omega
      | str s =>
        simp [jm, Json.stringify, quoteStr]
      | arr xs =>
        have hx : jml xs ≤ N := by
          have := jm_pos (Json.arr xs)
          simp only [jm] at hv ⊢
          omega
        have := ihl xs hx
        simp only [jm, Json.stringify, List.length_cons, List.length_append,
          List.length_singleton]
        omega
      | obj kvs =>
        have hx : jmo kvs ≤ N := by
          simp only [jm] at hv
          omega
        have := iho kvs hx
        simp only [jm, Json.stringify, List.length_cons, List.length_append,
          List.length_singleton]
        omega
    · intro xs hxs
      cases xs with
      | nil => simp [jml]
      | cons x xs' =>
        cases xs' with
        | nil =>
          have hx : jm x ≤ N := by
            simp only [jml] at hxs
            omega
          have := ihv x hx
          simp only [jml, strElems]
          omega
        | cons y ys =>
          have hpy := jml_pos y ys
          have hpx := jm_pos x
          have hx : jm x ≤ N := by
            simp only [jml] at hxs ⊢
            simp only [jml] at hpy
            omega
          have hyz : jml (y :: ys) ≤ N := by
            simp only [jml] at hxs ⊢
            omega
          have h1 := ihv x hx
          have h2 := ihl (y :: ys) hyz
          simp only [jml, strElems, List.length_append, List.length_cons] at h2 ⊢
          omega
    · intro kvs hk
      cases kvs with
      | nil => simp [jmo]
      | cons kv kvs' =>
        rcases kv with ⟨k, v⟩
        cases kvs' with
        | nil =>
          have hx : jm v ≤ N := by
            simp only [jmo] at hk
            omega
          have := ihv v hx
          simp only [jmo, strFields, quoteStr, List.length_append, List.length_cons]
          omega
        | cons kv2 kvs2 =>
          have hpy := jmo_pos kv2 kvs2
          have hpx := jm_pos v
          have hx : jm v ≤ N := by
            simp only [jmo] at hk ⊢
            omega
          have hyz : jmo (kv2 :: kvs2) ≤ N := by
            simp only [jmo] at hk ⊢
            omega
          have h1 := ihv v hx
          have h2 := iho (kv2 :: kvs2) hyz
          simp only [jmo, strFields, quoteStr, List.length_append, List.length_cons] at h2 ⊢
          omega

/-- Fuel of one more than the rendered length always suffices. -/
theorem jm_le_len (v : Json) : jm v ≤ v.stringify.length :=
  (jm_len_bound (jm v)).1 v (le_refl _)

/-! ## Codec roundtrip, part 4: reader characterizations -/

/-- Expecting a run that is literally present consumes it. -/
theorem expectChars_append (es rest : List Char) :
    expectChars es (es ++ rest) = some rest := by
  induction es with
  | nil => rfl
  | cons e es ih => simp [expectChars, ih]

/-- Value reader on `null`. -/
theorem readVal_null (f : Nat) (rest : List Char) :
    readVal (f + 1) ('n' :: 'u' :: 'l' :: 'l' :: rest) = some (.null, rest) := rfl

/-- Value reader on `true`. -/
theorem readVal_true (f : Nat) (rest : List Char) :
    readVal (f + 1) ('t' :: 'r' :: 'u' :: 'e' :: rest) = some (.bool true, rest) := rfl

/-- Value reader on `false`. -/
theorem readVal_false (f : Nat) (rest : List Char) :
    readVal (f + 1) ('f' :: 'a' :: 'l' :: 's' :: 'e' :: rest) = some (.bool false, rest) := rfl

/-- Value reader on a leading minus. -/
theorem readVal_minus (f : Nat) (cs : List Char) :
    readVal (f + 1) ('-' :: cs) =
      match readNat cs with
      | some (m, r) => some (.num (-(m : Int)), r)
      | none => none := rfl

/-- Value reader on a leading quote. -/
theorem readVal_quote (f : Nat) (cs : List Char) :
    readVal (f + 1) (qCh :: cs) =
      match readStr cs with
      | some (sr, r) => some (.str sr, r)
      | none => none := rfl

/-- Value reader on an opening bracket whose next character is not the
closing one. -/
theorem readVal_lbracket (f : Nat) (d : Char) (cs : List Char) (hne : ¬d.toNat = 93) :
    readVal (f + 1) ('[' :: d :: cs) =
      match readElems f (d :: cs) with
      | some (xs, r) => some (.arr xs, r)
      | none => none := by
  show (if d.toNat = 93 then some (Json.arr [], cs)
        else match readElems f (d :: cs) with
          | some (xs, r) => some (.arr xs, r)
          | none => none) = _
  rw [if_neg hne]

/-- Value reader on the empty array. -/
theorem readVal_empty_arr (f : Nat) (cs : List Char) :
    readVal (f + 1) ('[' :: ']' :: cs) = some (.arr [], cs) := rfl

/-- Value reader on an opening brace whose next character is not the
closing one. -/
theorem readVal_lbrace (f : Nat) (d : Char) (cs : List Char) (hne : ¬d.toNat = 125) :
    readVal (f + 1) (lbCh :: d :: cs) =
      match readFields f (d :: cs) with
      | some (kvs, r) => some (.obj kvs, r)
      | none => none := by
  show (if d.toNat = 125 then some (Json.obj [], cs)
        else match readFields f (d :: cs) with
          | some (kvs, r) => some (.obj kvs, r)
          | none => none) = _
  rw [if_neg hne]

/-- Value reader on the empty object. -/
theorem readVal_empty_obj (f : Nat) (cs : List Char) :
    readVal (f + 1) (lbCh :: rbCh :: cs) = some (.obj [], cs) := rfl

/-- Value reader on a leading digit. -/
theorem readVal_digit (f : Nat) (c : Char) (cs : List Char) (hd : isDigitCh c = true) :
    readVal (f + 1) (c :: cs) =
      match readNat (c :: cs) with
      | some (m, r) => some (.num (m : Int), r)
      | none => none := by
  have hb : 48 ≤ c.toNat ∧ c.toNat ≤ 57 := by
    simpa [isDigitCh, Bool.and_eq_true, decide_eq_true_eq] using hd
  show (if c.toNat = 110 then
          match expectChars ['u', 'l', 'l'] cs with
          | some r => some (Json.null, r)
          | none => none
        else if c.toNat = 116 then
          match expectChars ['r', 'u', 'e'] cs with
          | some r => some (Json.bool true, r)
          | none => none
        else if c.toNat = 102 then
          match expectChars ['a', 'l', 's', 'e'] cs with
          | some r => some (Json.bool false, r)
          | none => none
        else if c.toNat = 34 then
          match readStr cs with
          | some (sr, r) => some (Json.str sr, r)
          | none => none
        else if c.toNat = 91 then
          match cs with
          | [] => none
          | d :: r2 =>
            if d.toNat = 93 then some (Json.arr [], r2)
            else
              match readElems f (d :: r2) with
              | some (xs, r) => some (Json.arr xs, r)
              | none => none
        else if c.toNat = 123 then
          match cs with
          | [] => none
          | d :: r2 =>
            if d.toNat = 125 then some (Json.obj [], r2)
            else
              match readFields f (d :: r2) with
              | some (kvs, r) => some (Json.obj kvs, r)
              | none => none
        else if c.toNat = 45 then
          match readNat cs with
          | some (m, r) => some (Json.num (-(m : Int)), r)
          | none => none
        else if 48 ≤ c.toNat && c.toNat ≤ 57 then
          match readNat (c :: cs) with
          | some (m, r) => some (Json.num (m : Int), r)
          | none => none
        else none) = _
  rw [if_neg (by omega), if_neg (by omega), if_neg (by omega), if_neg (by omega),
    if_neg (by omega), if_neg (by omega), if_neg (by omega),
    if_pos (show (48 ≤ c.toNat && c.toNat ≤ 57) = true from hd)]

/-- Element reader, one level. -/
theorem readElems_succ (f : Nat) (cs : List Char) :
    readElems (f + 1) cs =
      match readVal f cs with
      | none => none
      | some (v, r) =>
        match r with
        | [] => none
        | d :: r2 =>
          if d.toNat = 44 then
            match readElems f r2 with
            | some (xs, r3) => some (v :: xs, r3)
            | none => none
          else if d.toNat = 93 then some ([v], r2)
          else none := rfl

/-- Field reader on a leading quote. -/
theorem readFields_quote (f : Nat) (cs : List Char) :
    readFields (f + 1) (qCh :: cs) =
      match readStr cs with
      | none => none
      | some (k, r) =>
        match r with
        | [] => none
        | c2 :: r2 =>
          if c2.toNat = 58 then
            match readVal f r2 with
            | none => none
            | some (v, r3) =>
              match r3 with
              | [] => none
              | c3 :: r4 =>
                if c3.toNat = 44 then
                  match readFields f r4 with
                  | some (kvs, r5) => some ((k, v) :: kvs, r5)
                  | none => none
                else if c3.toNat = 125 then some ([(k, v)], r4)
                else none
          else none := rfl

/-- Every rendering starts with a character that is not a separator or a
closer (codes 44, 93, 125). -/
theorem stringify_head (v : Json) :
    ∃ c cs, v.stringify = c :: cs
      ∧ ¬c.toNat = 44 ∧ ¬c.toNat = 93 ∧ ¬c.toNat = 125 := by
  cases v with
  | null =>
    exact ⟨'n', ['u', 'l', 'l'], by simp [Json.stringify, nullChars],
      by decide, by decide, by decide⟩
  | bool b =>
    cases b with
    | true =>
      exact ⟨'t', ['r', 'u', 'e'], by simp [Json.stringify, trueChars],
        by decide, by decide, by decide⟩
    | false =>
      exact ⟨'f', ['a', 'l', 's', 'e'], by simp [Json.stringify, falseChars],
        by decide, by decide, by decide⟩
  | num n =>
    by_cases hn : n < 0
    · refine ⟨'-', natChars n.natAbs, ?_, by decide, by decide, by decide⟩
      simp only [Json.stringify]
      unfold intChars
      rw [if_pos hn]
    · cases hnc : natChars n.toNat with
      | nil => exact absurd hnc (natChars_ne_nil _)
      | cons c cs =>
        have hdig : isDigitCh c = true :=
          natChars_all_digits n.toNat c (by rw [hnc]; exact List.mem_cons_self c cs)
        have hb : 48 ≤ c.toNat ∧ c.toNat ≤ 57 := by
          simpa [isDigitCh, Bool.and_eq_true, decide_eq_true_eq] using hdig
        refine ⟨c, cs, ?_, by omega, by omega, by omega⟩
        simp only [Json.stringify]
        unfold intChars
        rw [if_neg hn, hnc]
  | str s =>
    exact ⟨qCh, escapeStr s ++ [qCh], by simp [Json.stringify, quoteStr],
      by decide, by decide, by decide⟩
  | arr xs =>
    exact ⟨'[', strElems xs ++ [']'], by simp [Json.stringify],
      by decide, by decide, by decide⟩
  | obj kvs =>
    exact ⟨lbCh, strFields kvs ++ [rbCh], by simp [Json.stringify],
      by decide, by decide, by decide⟩

/-! ## Codec roundtrip, part 5: the main theorem -/

/-- Reading back a rendered value (followed by a legal continuation)
returns exactly that value, at any fuel at least its measure; mutually
with element and field lists. -/
theorem readVal_round_all (N : Nat) :
    (∀ v : Json, ∀ rest, jm v ≤ N → boundaryB rest = true →
        readVal N (v.stringify ++ rest) = some (v, rest))
    ∧ (∀ xs : List Json, ∀ rest, xs ≠ [] → jml xs ≤ N →
        readElems N (strElems xs ++ ']' :: rest) = some (xs, rest))
    ∧ (∀ kvs : List (List Char × Json), ∀ rest, kvs ≠ [] → jmo kvs ≤ N →
        readFields N (strFields kvs ++ rbCh :: rest) = some (kvs, rest)) := by
  induction N with
  | zero =>
    refine ⟨fun v rest hv _ => absurd hv (by have := jm_pos v; omega),
      fun xs rest hne hx => ?_, fun kvs rest hne hk => ?_⟩
    · cases xs with
      | nil => exact absurd rfl hne
      | cons x xs => exact absurd hx (by have := jml_pos x xs; omega)
    · cases kvs with
      | nil => exact absurd rfl hne
      | cons kv kvs => exact absurd hk (by have := jmo_pos kv kvs; omega)
  | succ N ih =>
    obtain ⟨ihv, ihl, iho⟩ := ih
    refine ⟨?_, ?_, ?_⟩
    · intro v rest hv hb
      cases v with
      | null =>
        have heq : (Json.null).stringify ++ rest = 'n' :: 'u' :: 'l' :: 'l' :: rest := by
          simp [Json.stringify, nullChars]
        rw [heq, readVal_null]
      | bool b =>
        cases b with
        | true =>
          have heq : (Json.bool true).stringify ++ rest
              = 't' :: 'r' :: 'u' :: 'e' :: rest := by
            simp [Json.stringify, trueChars]
          rw [heq, readVal_true]
        | false =>
          have heq : (Json.bool false).stringify ++ rest
              = 'f' :: 'a' :: 'l' :: 's' :: 'e' :: rest := by
            simp [Json.stringify, falseChars]
          rw [heq, readVal_false]
      | num n =>
        rcases Int.lt_or_le n 0 with hn | hn
        · have heq : (Json.num n).stringify = '-' :: natChars n.natAbs := by
            simp only [Json.stringify]
            unfold intChars
            rw [if_pos hn]
          rw [heq, List.cons_append, readVal_minus,
            readNat_natChars n.natAbs rest (boundary_no_digit rest hb)]
          show some (Json.num (-(n.natAbs : Int)), rest) = some (Json.num n, rest)
          have hval : -(n.natAbs : Int) = n := by omega
          rw [hval]
        · have heq : (Json.num n).stringify = natChars n.toNat := by
            simp only [Json.stringify]
            unfold intChars
            rw [if_neg (by omega)]
          rcases hnc : natChars n.toNat with _ | ⟨c, cs⟩
          · exact absurd hnc (natChars_ne_nil _)
          · have hdig : isDigitCh c = true :=
              natChars_all_digits n.toNat c (by rw [hnc]; exact List.mem_cons_self c cs)
            have hrn : readNat ((c :: cs) ++ rest) = some (n.toNat, rest) := by
              rw [← hnc]
              exact readNat_natChars n.toNat rest (boundary_no_digit rest hb)
            rw [heq, hnc, List.cons_append, readVal_digit N c _ hdig]
            rw [show c :: (cs ++ rest) = (c :: cs) ++ rest from rfl, hrn]
            show some (Json.num ((n.toNat : Nat) : Int), rest) = some (Json.num n, rest)
            have hval : ((n.toNat : Nat) : Int) = n := by omega
            rw [hval]
      | str s =>
        have heq : (Json.str s).stringify ++ rest
            = qCh :: (escapeStr s ++ (qCh :: rest)) := by
          simp [Json.stringify, quoteStr]
        rw [heq, readVal_quote, readStr_round s rest]
      | arr xs =>
        cases xs with
        | nil =>
          have heq : (Json.arr []).stringify ++ rest = '[' :: ']' :: rest := by
            simp [Json.stringify, strElems]
          rw [heq, readVal_empty_arr]
        | cons x xs' =>
          obtain ⟨c, cs, hsx, h44, h93, h125⟩ := stringify_head x
          have ht : ∃ t, strElems (x :: xs') = c :: t := by
            cases xs' with
            | nil => exact ⟨cs, by simp [strElems, hsx]⟩
            | cons y ys =>
              exact ⟨cs ++ ',' :: strElems (y :: ys), by simp [strElems, hsx]⟩
          obtain ⟨t, ht⟩ := ht
          have heq : (Json.arr (x :: xs')).stringify ++ rest
              = '[' :: c :: (t ++ ']' :: rest) := by
            simp [Json.stringify, ht, List.cons_append, List.append_assoc]
          have helems : readElems N (strElems (x :: xs') ++ ']' :: rest)
              = some (x :: xs', rest) :=
            ihl (x :: xs') rest (by simp) (by simp only [jm] at hv; omega)
          rw [heq, readVal_lbracket N c _ h93]
          rw [show c :: (t ++ ']' :: rest) = strElems (x :: xs') ++ ']' :: rest from by
            rw [ht]; simp]
          rw [helems]
      | obj kvs =>
        cases kvs with
        | nil =>
          have heq : (Json.obj []).stringify ++ rest = lbCh :: rbCh :: rest := by
            simp [Json.stringify, strFields]
          rw [heq, readVal_empty_obj]
        | cons kv kvs' =>
          rcases kv with ⟨k, v0⟩
          have ht : ∃ t, strFields ((k, v0) :: kvs') = qCh :: t := by
            cases kvs' with
            | nil =>
              exact ⟨escapeStr k ++ qCh :: ':' :: Json.stringify v0,
                by simp [strFields, quoteStr]⟩
            | cons kv2 kvs2 =>
              exact ⟨escapeStr k ++ qCh :: ':' :: (Json.stringify v0
                  ++ ',' :: strFields (kv2 :: kvs2)),
                by simp [strFields, quoteStr]⟩
          obtain ⟨t, ht⟩ := ht
          have heq : (Json.obj ((k, v0) :: kvs')).stringify ++ rest
              = lbCh :: qCh :: (t ++ rbCh :: rest) := by
            simp [Json.stringify, ht, List.cons_append, List.append_assoc]
          have hfields : readFields N (strFields ((k, v0) :: kvs') ++ rbCh :: rest)
              = some ((k, v0) :: kvs', rest) :=
            iho ((k, v0) :: kvs') rest (by simp) (by simp only [jm] at hv; omega)
          rw [heq, readVal_lbrace N qCh _ (by rw [qCh_toNat]; omega)]
          rw [show qCh :: (t ++ rbCh :: rest) = strFields ((k, v0) :: kvs') ++ rbCh :: rest
            from by rw [ht]; simp]
          rw [hfields]
    · intro xs rest hne hx
      cases xs with
      | nil => exact absurd rfl hne
      | cons x xs' =>
        cases xs' with
        | nil =>
          have hval := ihv x (']' :: rest) (by simp only [jml] at hx; omega) rfl
          have heq : strElems [x] ++ ']' :: rest = Json.stringify x ++ ']' :: rest := by
            simp [strElems]
          rw [heq, readElems_succ, hval]
          rfl
        | cons y ys =>
          have hbx : jm x ≤ N := by
            have h1 := jml_pos y ys
            simp only [jml] at hx h1 ⊢
            omega
          have hval := ihv x (',' :: (strElems (y :: ys) ++ ']' :: rest)) hbx rfl
          have hrec := ihl (y :: ys) rest (by simp)
            (by have := jm_pos x; simp only [jml] at hx ⊢; omega)
          have heq : strElems (x :: y :: ys) ++ ']' :: rest
              = Json.stringify x ++ (',' :: (strElems (y :: ys) ++ ']' :: rest)) := by
            simp [strElems]
          rw [heq, readElems_succ, hval]
          show (match readElems N (strElems (y :: ys) ++ ']' :: rest) with
                | some (el, r3) => some (x :: el, r3)
                | none => none) = some (x :: y :: ys, rest)
          rw [hrec]
    · intro kvs rest hne hk
      cases kvs with
      | nil => exact absurd rfl hne
      | cons kv kvs' =>
        rcases kv with ⟨k, v0⟩
        cases kvs' with
        | nil =>
          have hval := ihv v0 (rbCh :: rest) (by simp only [jmo] at hk; omega) rfl
          have heq : strFields [(k, v0)] ++ rbCh :: rest
              = qCh :: (escapeStr k ++ (qCh :: (':' :: (Json.stringify v0
                  ++ rbCh :: rest)))) := by
            simp [strFields, quoteStr]
          rw [heq, readFields_quote, readStr_round]
          show (match readVal N (Json.stringify v0 ++ rbCh :: rest) with
                | none => none
                | some (v, r3) =>
                  match r3 with
                  | [] => none
                  | c3 :: r4 =>
                    if c3.toNat = 44 then
                      match readFields N r4 with
                      | some (kvs2, r5) => some ((k, v) :: kvs2, r5)
                      | none => none
                    else if c3.toNat = 125 then some ([(k, v)], r4)
                    else none) = some ([(k, v0)], rest)
          rw [hval]
          rfl
        | cons kv2 kvs2 =>
          rcases kv2 with ⟨k2, v2⟩
          have hbv : jm v0 ≤ N := by
            simp only [jmo] at hk
            omega
          have hval := ihv v0
            (',' :: (strFields ((k2, v2) :: kvs2) ++ rbCh :: rest)) hbv rfl
          have hrec := iho ((k2, v2) :: kvs2) rest (by simp)
            (by have := jm_pos v0; simp only [jmo] at hk ⊢; omega)
          have heq : strFields ((k, v0) :: (k2, v2) :: kvs2) ++ rbCh :: rest
              = qCh :: (escapeStr k ++ (qCh :: (':' :: (Json.stringify v0
                  ++ (',' :: (strFields ((k2, v2) :: kvs2) ++ rbCh :: rest)))))) := by
            simp [strFields, quoteStr]
          rw [heq, readFields_quote, readStr_round]
          show (match readVal N (Json.stringify v0
                  ++ (',' :: (strFields ((k2, v2) :: kvs2) ++ rbCh :: rest))) with
                | none => none
                | some (v, r3) =>
                  match r3 with
                  | [] => none
                  | c3 :: r4 =>
                    if c3.toNat = 44 then
                      match readFields N r4 with
                      | some (kvs3, r5) => some ((k, v) :: kvs3, r5)
                      | none => none
                    else if c3.toNat = 125 then some ([(k, v)], r4)
                    else none)
              = some ((k, v0) :: (k2, v2) :: kvs2, rest)
          rw [hval]
          show (match readFields N (strFields ((k2, v2) :: kvs2) ++ rbCh :: rest) with
                | some (kvs3, r5) => some ((k, v0) :: kvs3, r5)
                | none => none)
              = some ((k, v0) :: (k2, v2) :: kvs2, rest)
          rw [hrec]

/-- The codec roundtrip: parsing the rendering of any JSON-serializable
structure recovers it exactly. -/
theorem jsonParse_stringify (v : Json) : jsonParse v.stringify = some v := by
  have h := (readVal_round_all (v.stringify.length + 1)).1 v []
    (le_trans (jm_le_len v) (Nat.le_succ _)) rfl
  rw [List.append_nil] at h
  simp [jsonParse, h]

/-- `getProfile` on a ready slashtag whose public drive holds parseable
bytes under `profile.json` returns the parsed structure. -/
theorem getProfile_of_stored (s : Slashtag) (d : DriveHandle) (bytes : List Char)
    (v : Json) (hf : s.readyFlag = true) (hpd : s.publicDrive = some d)
    (hdat : Slashtag.getDrive s d Slashtag.profileField = some bytes)
    (hparse : jsonParse bytes = some v) :
    (Slashtag.getProfile s).1 = .ok (some v) := by
  simp [Slashtag.getProfile, runReady_of_ready s hf, hpd, hdat, hparse]

/-- C8: on a readied local slashtag (a writable public drive exists),
`setProfile(p); getProfile()` returns a structure equal to `p`, stored as
JSON text under `profile.json` in the public drive; on an identity whose
profile was never set, `getProfile()` resolves to the not-found signal
(`null`), not an error. -/
theorem profile_roundtrip (s : Slashtag) (d : DriveHandle) (p : Json)
    (hf : s.readyFlag = true) (hpd : s.publicDrive = some d) (hw : d.writable = true) :
    (Slashtag.setProfile s p).1 = .ok ()
    ∧ Slashtag.getDrive (Slashtag.setProfile s p).2 d Slashtag.profileField
        = some p.stringify
    ∧ (Slashtag.getProfile (Slashtag.setProfile s p).2).1 = .ok (some p)
    ∧ (∀ kp : KeyPair,
        (Slashtag.getProfile (Slashtag.initState (some kp) kp.publicKey)).1 = .ok none) := by
  have hrr := runReady_of_ready s hf
  have hset : Slashtag.setProfile s p
      = (.ok (), { s with driveData :=
          (d.key, (Slashtag.profileField, p.stringify)
            :: (alookup s.driveData d.key).getD []) :: s.driveData }) := by
    simp [Slashtag.setProfile, hrr, hpd, Slashtag.putDrive, hw]
  have hget : Slashtag.getDrive (Slashtag.setProfile s p).2 d Slashtag.profileField
      = some p.stringify := by
    rw [hset]
    simp [Slashtag.getDrive, alookup_cons_self]
  refine ⟨by rw [hset], hget, ?_, ?_⟩
  · exact getProfile_of_stored _ d p.stringify p
      (by rw [hset]; exact hf) (by rw [hset]; exact hpd) hget (jsonParse_stringify p)
  · intro kp
    have hru := runReady_unready (Slashtag.initState (some kp) kp.publicKey)
      (by simp [Slashtag.initState]) (by simp [Slashtag.initState, alookup])
    simp only [Slashtag.getProfile, hru]
    simp [Slashtag.getDrive, Slashtag.initState, alookup]

/-- C8 witness: the readied example slashtag stores and returns a
profile, and a fresh identity reports the not-found signal. -/
theorem profile_roundtrip_witness :
    stReady.readyFlag = true ∧ stReady.publicDrive = some dEx ∧ dEx.writable = true
    ∧ ((Slashtag.setProfile stReady Json.null).1 = .ok ()
       ∧ Slashtag.getDrive (Slashtag.setProfile stReady Json.null).2 dEx
           Slashtag.profileField = some Json.null.stringify
       ∧ (Slashtag.getProfile (Slashtag.setProfile stReady Json.null).2).1
           = .ok (some Json.null)
       ∧ (∀ kp : KeyPair,
           (Slashtag.getProfile (Slashtag.initState (some kp) kp.publicKey)).1
             = .ok none)) :=
  ⟨by decide, by decide, by decide,
    profile_roundtrip stReady dEx Json.null (by decide) (by decide) (by decide)⟩
